import Mathlib

/-!
Verification development for the "Lets-break-the-information-gap" front end.

The repository is a React single-page application. The definitions below are a
shallow embedding of the client-side logic that the specification talks about:

* the axios response interceptor handling 401 responses
  (src/frontend/src/pages/Articles/Articles.tsx, api service section);
* the article filtering and selection logic of the Articles page
  (src/frontend/src/pages/Articles/Articles.tsx);
* the RSS-source title fallback helpers
  (src/frontend/src/pages/RssSources/RssSources-fixes.tsx and the
  RssSourceCard component);
* the audio playback controller of the Podcasts page
  (src/unnamed/part_001): `stopAllAudio`, `getAudioUrl`, `playPodcast`,
  `handlePlay` and the audio element event handlers, embedded as a
  state-transition system whose events are user clicks, fetch completions and
  media-element callbacks.

JavaScript-specific behaviour (truthiness of `null`/`undefined`/`""`/`0`,
`String.prototype.includes`, the `||` fallback operator) is modelled
explicitly by the `js*` helpers so that the embedded code keeps the exact
branching structure of the source.
-/

namespace LetsBreakInfoGap

/-- JS truthiness of a `string | null | undefined` value: `undefined`, `null`
and the empty string are falsy, every other string is truthy. -/
def jsStrTruthy : Option String → Bool
  | none => false
  | some s => !(s == "")

/-- JS truthiness of a `number | null` value: `null` and `0` are falsy. -/
def jsNumTruthy : Option Nat → Bool
  | none => false
  | some n => !(n == 0)

/-- Helper for `jsIncludes`: does `needle` occur as a contiguous run inside
the character list? -/
def charsInclude (needle : List Char) : List Char → Bool
  | [] => needle.isEmpty
  | c :: rest => needle.isPrefixOf (c :: rest) || charsInclude needle rest

/-- JS `hay.includes(needle)`: substring containment. -/
def jsIncludes (hay needle : String) : Bool :=
  charsInclude needle.toList hay.toList

/-- JS `a || b` where `a` is a `string | null | undefined` and the result is
used as a string: falls through to `b` when `a` is absent or empty. -/
def jsOrStr (a : Option String) (b : String) : String :=
  match a with
  | some s => if s == "" then b else s
  | none => b

/-! ## API client: axios response interceptor (Articles.tsx, api section)

The interceptor receives the failed response's status, the request url
(`error.config?.url`, possibly absent), the current `window.location.pathname`
and the stored `access_token`.  It may remove the token from local storage and
redirect the browser. -/

/-- Result of running the response interceptor: the stored token afterwards
and the location the browser was redirected to, if any. -/
structure AuthResult where
  token : Option String
  redirect : Option String
deriving DecidableEq

/-- The `isAuthEndpoint` test of the interceptor: does the request url
contain `/auth/login` or `/auth/register` (false when the url is absent)? -/
def isAuthEndpointUrl (url : Option String) : Bool :=
  (match url with | some u => jsIncludes u "/auth/login" | none => false) ||
  (match url with | some u => jsIncludes u "/auth/register" | none => false)

/-- The `isAuthPage` test of the interceptor: is the current pathname the
login or register page? -/
def isAuthPagePath (pathname : String) : Bool :=
  pathname == "/login" || pathname == "/register"

/-- Embedding of the `api.interceptors.response.use` error handler: on a 401,
if the request url is not an auth endpoint and the current page is not an auth
page, remove `access_token` from local storage and navigate to `/login`. -/
def onResponseError (status : Option Nat) (url : Option String)
    (pathname : String) (token : Option String) : AuthResult :=
  if status == some 401 then
    if !(isAuthEndpointUrl url) && !(isAuthPagePath pathname) then
      { token := none, redirect := some "/login" }
    else
      { token := token, redirect := none }
  else
    { token := token, redirect := none }

/-! ## Articles page: filtering and selection (Articles.tsx) -/

/-- The `article.source` object as used by the page (`source?.name`). -/
structure ArticleSource where
  name : Option String
deriving DecidableEq

/-- An article as consumed by the Articles page: only the fields the filtering
logic reads. `summary` and `source` may be absent (`summary?.`, `source?.`). -/
structure Article where
  id : Nat
  title : String
  summary : Option String
  is_read : Bool
  source : Option ArticleSource
deriving DecidableEq

/-- JS `article.source?.name` (absent if either link is missing). -/
def articleSourceName (a : Article) : Option String :=
  a.source.bind (fun s => s.name)

/-- The read-state filter select: `'all' | 'read' | 'unread'`. -/
inductive ReadFilter
  | all
  | read
  | unread
deriving DecidableEq

/-- Embedding of the `filteredArticles` memo: three sequential `filter`
passes, each applied only when its control is active.  The source filter uses
the sentinel string `"all"`, the search pass runs only when the trimmed search
term is nonempty, and the term is lowercased (but not trimmed) before
matching. -/
def filteredArticles (rf : ReadFilter) (selectedSource searchTerm : String)
    (articles : List Article) : List Article :=
  let f1 :=
    match rf with
    | .all => articles
    | .read => articles.filter (fun a => a.is_read)
    | .unread => articles.filter (fun a => !a.is_read)
  let f2 :=
    if selectedSource == "all" then f1
    else f1.filter (fun a => articleSourceName a == some selectedSource)
  if searchTerm.trim == "" then f2
  else
    let term := searchTerm.toLower
    f2.filter (fun a =>
      jsIncludes a.title.toLower term ||
      (match a.summary with
       | some s => jsIncludes s.toLower term
       | none => false) ||
      (match articleSourceName a with
       | some n => jsIncludes n.toLower term
       | none => false))

/-- Read-state predicate as the specification states it. -/
def readPred (rf : ReadFilter) (a : Article) : Bool :=
  match rf with
  | .all => true
  | .read => a.is_read
  | .unread => !a.is_read

/-- Source predicate as the specification states it (inactive on the `"all"`
sentinel). -/
def sourcePred (selectedSource : String) (a : Article) : Bool :=
  selectedSource == "all" || articleSourceName a == some selectedSource

/-- Search predicate as the specification states it: inactive when the
trimmed term is empty, otherwise case-insensitive substring match over title,
summary and source name. -/
def searchPred (searchTerm : String) (a : Article) : Bool :=
  searchTerm.trim == "" ||
  (jsIncludes a.title.toLower searchTerm.toLower ||
   (match a.summary with
    | some s => jsIncludes s.toLower searchTerm.toLower
    | none => false) ||
   (match articleSourceName a with
    | some n => jsIncludes n.toLower searchTerm.toLower
    | none => false))

/-- Single-pass conjunctive filter following the specification's wording:
an article is kept exactly when all active predicates hold. -/
def filteredArticlesSpec (rf : ReadFilter) (selectedSource searchTerm : String)
    (articles : List Article) : List Article :=
  articles.filter (fun a =>
    readPred rf a && sourcePred selectedSource a && searchPred searchTerm a)

/-- Embedding of `toggleArticleSelection`: copy the selection set, then
delete the id if present, else add it. -/
def toggleArticleSelection (articleId : Nat) (selected : Finset Nat) :
    Finset Nat :=
  if articleId ∈ selected then selected.erase articleId
  else insert articleId selected

/-- Embedding of `toggleSelectAll`: if the selection size equals the filtered
list's length, clear; otherwise select the ids of every filtered article. -/
def toggleSelectAll (filtered : List Article) (selected : Finset Nat) :
    Finset Nat :=
  if selected.card = filtered.length then ∅
  else (filtered.map (fun a => a.id)).toFinset

/-! ## RSS source title display (RssSources-fixes.tsx and RssSourceCard) -/

/-- An RSS source as read by the title helpers. -/
structure RssSource where
  title : Option String
  name : Option String
  feed_title : Option String
  url : String
deriving DecidableEq

/-- Embedding of `titleDisplay` from RssSources-fixes.tsx:
`source.title || source.name || source.feed_title || 'Untitled RSS Source'`. -/
def titleDisplay (source : RssSource) : String :=
  jsOrStr source.title
    (jsOrStr source.name (jsOrStr source.feed_title "Untitled RSS Source"))

/-- Embedding of the title shown by `RssSourceCard` (src/unnamed/part_003):
`source.title || 'Untitled RSS Source'`. -/
def cardTitle (source : RssSource) : String :=
  jsOrStr source.title "Untitled RSS Source"

/-! ## Audio playback controller (src/unnamed/part_001, the Podcasts page)

The controller is embedded as a state-transition system.  Object URLs, abort
controllers and audio-element identities are modelled as natural-number
tokens drawn from fresh counters.  Asynchronous control flow is cut at the
`await` of the network fetch: a `click` event runs `handlePlay` (and the
synchronous prefix of `playPodcast` up to `await getAudioUrl`, recording the
cache lookup performed at call time), and a separate `resume` event runs the
rest of `playPodcast` when the fetch settles, with the settlement outcome
chosen by the environment.  Since the browser drains the microtask queue
between tasks, everything between two `await`s of a network promise is one
atomic step; the (sub-microtask) resolution of `audio.play()` is collapsed
into its surrounding step, with media failures delivered through the
`audioError` event (`audio.onerror`).  `createdUrls`, `revoked`, `aborted`,
`fetchCount` and `promotions` record, respectively, the object URLs created
by `URL.createObjectURL`, those released by `URL.revokeObjectURL`, the abort
controllers whose `abort()` ran, the number of network fetches issued, and
(ghost state for the theorems) every assignment `setCurrentlyPlaying(id)`
made by `playPodcast`. -/

/-- The single shared `HTMLAudioElement`: identity token, the podcast id the
element was created for (captured by its event-handler closures), the object
URL it plays, and its paused flag. -/
structure AudioElem where
  tok : Nat
  pid : Nat
  url : Nat
  paused : Bool
deriving DecidableEq

/-- Errors thrown on the audio-loading path, distinguished the way the
`catch` in `playPodcast` distinguishes them (by `error.name`). -/
inductive FetchErrorKind
  /-- `DOMException` named `AbortError`: the fetch itself was cancelled. -/
  | abortError
  /-- `throw new Error('HTTP n')` on a non-ok response (name `Error`). -/
  | httpError (status : Nat)
  /-- the fetch rejected with a network `TypeError` (name `TypeError`). -/
  | netError
  /-- `throw new Error('Request aborted')` from the post-blob check in
  `getAudioUrl` (name `Error`, not `AbortError`). -/
  | requestAborted
  /-- `throw new Error('No authentication token')` (name `Error`). -/
  | noToken
deriving DecidableEq

/-- The test `error.name === 'AbortError'` used by `playPodcast`'s catch. -/
def FetchErrorKind.isAbortError : FetchErrorKind → Bool
  | .abortError => true
  | _ => false

/-- How the environment settles an outstanding fetch. -/
inductive FetchOutcome
  /-- the response resolved ok and its blob was read. -/
  | success
  /-- the response resolved but `!response.ok`. -/
  | httpError (status : Nat)
  /-- the fetch rejected with a network error. -/
  | netError
  /-- the fetch rejected with `AbortError` (its controller was aborted). -/
  | abortReject
deriving DecidableEq

/-- A `playPodcast` invocation suspended at `await getAudioUrl`: the podcast
id, the abort-controller token it created, and the result of the cache
lookup `getAudioUrl` performed synchronously at call time. -/
structure PendingLoad where
  pid : Nat
  ctrl : Nat
  cacheHit : Option Nat
deriving DecidableEq

/-- The controller's complete state: the React state hooks, the refs, and
the bookkeeping described in the section header. -/
structure PlayerState where
  currentlyPlaying : Option Nat
  isPlaying : Bool
  currentTime : Nat
  duration : Nat
  isLoading : Option Nat
  errorMessage : Option String
  audioRef : Option AudioElem
  opLock : Bool
  cache : List (Nat × Nat)
  loadingPodcast : Option Nat
  abortCtrl : Option Nat
  aborted : List Nat
  pending : List PendingLoad
  revoked : List Nat
  createdUrls : List Nat
  fetchCount : Nat
  nextCtrl : Nat
  nextUrl : Nat
  nextTok : Nat
  promotions : List Nat
deriving DecidableEq

/-- The state on first mount: every ref null, every hook at its `useState`
default, all counters fresh. -/
def initialState : PlayerState :=
  { currentlyPlaying := none, isPlaying := false, currentTime := 0,
    duration := 0, isLoading := none, errorMessage := none, audioRef := none,
    opLock := false, cache := [], loadingPodcast := none, abortCtrl := none,
    aborted := [], pending := [], revoked := [], createdUrls := [],
    fetchCount := 0, nextCtrl := 0, nextUrl := 0, nextTok := 0,
    promotions := [] }

/-- `audioCacheRef.current.get(podcastId)` (a hit is always truthy: object
URLs are nonempty strings). -/
def cacheLookup (cache : List (Nat × Nat)) (pid : Nat) : Option Nat :=
  (cache.find? (fun p => p.1 == pid)).map (fun p => p.2)

/-- Embedding of `showError`: set the transient message (a 3-second timer,
modelled by the `errorTimeout` event, later clears it). -/
def showError (msg : String) (s : PlayerState) : PlayerState :=
  { s with errorMessage := some msg }

/-- Embedding of `stopAllAudio`: abort any in-flight request, detach and
silence the audio element, and reset every piece of playback state
(including releasing the operation lock). -/
def stopAllAudio (s : PlayerState) : PlayerState :=
  let s :=
    match s.abortCtrl with
    | some c => { s with aborted := c :: s.aborted, abortCtrl := none }
    | none => s
  { s with audioRef := none, currentlyPlaying := none, isPlaying := false,
           currentTime := 0, duration := 0, isLoading := none,
           loadingPodcast := none, opLock := false }

/-- The part of `getAudioUrl` that runs on a cache miss, after `await fetch`
settles: check the token, account the network fetch, and on success run the
post-blob abort check, create and cache the object URL.  `abortedNow` is the
value of `signal.aborted` when the continuation runs. -/
def getAudioUrlMiss (token : Option String) (outcome : FetchOutcome)
    (abortedNow : Bool) (pid : Nat) (s : PlayerState) :
    Except FetchErrorKind Nat × PlayerState :=
  if !(jsStrTruthy token) then (.error .noToken, s)
  else
    let s := { s with fetchCount := s.fetchCount + 1 }
    match outcome with
    | .abortReject => (.error .abortError, s)
    | .netError => (.error .netError, s)
    | .httpError c => (.error (.httpError c), s)
    | .success =>
      if abortedNow then (.error .requestAborted, s)
      else
        let url := s.nextUrl
        (.ok url,
         { s with cache := (pid, url) :: s.cache,
                  createdUrls := url :: s.createdUrls,
                  nextUrl := url + 1 })

/-- Embedding of `getAudioUrl` as a whole (used directly for the caching
claims): return the cached URL on a hit, otherwise perform the authenticated
fetch. -/
def getAudioUrl (token : Option String) (outcome : FetchOutcome)
    (abortedNow : Bool) (pid : Nat) (s : PlayerState) :
    Except FetchErrorKind Nat × PlayerState :=
  match cacheLookup s.cache pid with
  | some url => (.ok url, s)
  | none => getAudioUrlMiss token outcome abortedNow pid s

/-- Synchronous prefix of `playPodcast`, up to `await getAudioUrl`: the
loading-target guard, creation of the new `AbortController`, and the cache
lookup `getAudioUrl` performs before its first `await`. -/
def playPodcastStart (pid : Nat) (s : PlayerState) : PlayerState :=
  if s.loadingPodcast == some pid then
    let c := s.nextCtrl
    { s with abortCtrl := some c, nextCtrl := c + 1,
             pending := s.pending ++ [⟨pid, c, cacheLookup s.cache pid⟩] }
  else s

/-- The result `await getAudioUrl` delivers to a suspended `playPodcast`,
as a function of the settlement outcome and the state at settlement time. -/
def resumeResult (token : Option String) (outcome : FetchOutcome)
    (p : PendingLoad) (s : PlayerState) : Except FetchErrorKind Nat :=
  match p.cacheHit with
  | some url => .ok url
  | none => (getAudioUrlMiss token outcome (decide (p.ctrl ∈ s.aborted))
               p.pid s).1

/-- The state effects of the resumed `getAudioUrl` call itself: the
suspended continuation is retired from `pending`, and on a cache miss the
miss branch of `getAudioUrl` runs (accounting the fetch and, on success,
creating and caching the object URL). -/
def resumeBase (token : Option String) (outcome : FetchOutcome)
    (p : PendingLoad) (s : PlayerState) : PlayerState :=
  let abortedNow := decide (p.ctrl ∈ s.aborted)
  let s1 := { s with pending := s.pending.filter (fun q => !(q.ctrl == p.ctrl)) }
  match p.cacheHit with
  | some _ => s1
  | none => (getAudioUrlMiss token outcome abortedNow p.pid s1).2

/-- Continuation of `playPodcast` from `await getAudioUrl` on: the
supersession check (revoking the stale URL), creation of the audio element
and its handlers, promotion to the active podcast, and the `catch` clause
distinguishing `AbortError` from every other failure. -/
def playPodcastResume (token : Option String) (outcome : FetchOutcome)
    (p : PendingLoad) (s : PlayerState) : PlayerState :=
  let abortedNow := decide (p.ctrl ∈ s.aborted)
  let res := resumeResult token outcome p s
  let s2 := resumeBase token outcome p s
  match res with
  | .ok url =>
    if !(s2.loadingPodcast == some p.pid) || abortedNow then
      { s2 with revoked := url :: s2.revoked }
    else
      let a : AudioElem := ⟨s2.nextTok, p.pid, url, false⟩
      { s2 with currentlyPlaying := some p.pid, audioRef := some a,
                nextTok := s2.nextTok + 1, isPlaying := true,
                promotions := p.pid :: s2.promotions }
  | .error e =>
    if e.isAbortError then s2
    else if s2.loadingPodcast == some p.pid then
      showError "Failed to load podcast" (stopAllAudio s2)
    else s2

/-- Embedding of `handlePlay`: the operation-lock guard, the same-podcast
pause/resume toggle (taken when `currentlyPlaying === podcastId` and
`isLoading` is JS-falsy), the lost-instance restart, and the switch branch
that stops everything and starts loading the new podcast. -/
def handlePlay (pid : Nat) (s : PlayerState) : PlayerState :=
  if s.opLock then s
  else
    let s := { s with opLock := true }
    if s.currentlyPlaying == some pid && !(jsNumTruthy s.isLoading) then
      match s.audioRef with
      | some a =>
        if s.isPlaying then
          { s with audioRef := some { a with paused := true },
                   isPlaying := false, opLock := false }
        else
          { s with audioRef := some { a with paused := false },
                   isPlaying := true, opLock := false }
      | none =>
        let s := { s with isLoading := some pid, loadingPodcast := some pid }
        playPodcastStart pid s
    else
      let s := stopAllAudio s
      let s := { s with isLoading := some pid, loadingPodcast := some pid }
      playPodcastStart pid s

/-- The events driving the controller: user clicks, fetch settlements, and
the media-element callbacks (each callback event carries the token of the
element it fires on, so stale elements' events are ignored by the
`audioRef.current === audio` guards, exactly as in the source). -/
inductive PlayerEvent
  | click (pid : Nat)
  | resume (ctrl : Nat) (outcome : FetchOutcome)
  | loadedMetadata (tok : Nat) (dur : Nat)
  | timeUpdate (tok : Nat) (t : Nat)
  | ended (tok : Nat)
  | audioError (tok : Nat)
  | errorTimeout
deriving DecidableEq

/-- Is the event a user click on a play button? -/
def PlayerEvent.isClick : PlayerEvent → Bool
  | .click _ => true
  | _ => false

/-- One step of the controller.  `token` is the stored `access_token` read by
`getAudioUrl` at fetch time. -/
def step (token : Option String) (e : PlayerEvent) (s : PlayerState) :
    PlayerState :=
  match e with
  | .click pid => handlePlay pid s
  | .resume ctrl outcome =>
    match s.pending.find? (fun p => p.ctrl == ctrl) with
    | some p => playPodcastResume token outcome p s
    | none => s
  | .loadedMetadata tok dur =>
    match s.audioRef with
    | some a =>
      if a.tok == tok && s.loadingPodcast == some a.pid then
        { s with duration := dur, isLoading := none,
                 loadingPodcast := none, opLock := false }
      else s
    | none => s
  | .timeUpdate tok t =>
    match s.audioRef with
    | some a => if a.tok == tok then { s with currentTime := t } else s
    | none => s
  | .ended tok =>
    match s.audioRef with
    | some a => if a.tok == tok then stopAllAudio s else s
    | none => s
  | .audioError tok =>
    match s.audioRef with
    | some a =>
      if a.tok == tok then showError "Audio playback failed" (stopAllAudio s)
      else s
    | none => s
  | .errorTimeout => { s with errorMessage := none }

/-- Run a list of events from a state. -/
def run (token : Option String) (s : PlayerState) (evs : List PlayerEvent) :
    PlayerState :=
  evs.foldl (fun s e => step token e s) s

/-- A quiescent controller state: no operation in progress (lock free, no
load pending, no outstanding fetch or controller), no promotions recorded
yet, and the basic consistency that an active podcast has an attached audio
element. -/
def Quiescent (s : PlayerState) : Prop :=
  s.opLock = false ∧ s.pending = [] ∧ s.isLoading = none ∧
  s.loadingPodcast = none ∧
  (s.currentlyPlaying.isSome → s.audioRef.isSome)

instance (s : PlayerState) : Decidable (Quiescent s) := by
  unfold Quiescent
  infer_instance

/-- A concrete state in which podcast 3 is playing: used to instantiate the
toggling theorem. -/
def samplePlayingState : PlayerState :=
  { initialState with currentlyPlaying := some 3, isPlaying := true,
                      audioRef := some ⟨0, 3, 7, false⟩ }

/-! ## Theorems -/

/-- C2: a 401 response on a non-auth endpoint while not on an auth page
removes the stored access token and redirects to `/login`; a 401 from the
login endpoint never redirects (and leaves the token in place). -/
theorem c2_unauthorized_redirect (status : Option Nat) (url : Option String)
    (pathname : String) (token : Option String) :
    (status = some 401 → isAuthEndpointUrl url = false →
      isAuthPagePath pathname = false →
      onResponseError status url pathname token =
        { token := none, redirect := some "/login" }) ∧
    (∀ u, url = some u → jsIncludes u "/auth/login" = true →
      (onResponseError status url pathname token).redirect = none ∧
      (onResponseError status url pathname token).token = token) := by
  constructor
  · intro hstatus hend hpage
    subst hstatus
    simp [onResponseError, hend, hpage]
  · intro u hu hlogin
    subst hu
    cases h401 : (status == some 401) <;>
      simp [onResponseError, h401, isAuthEndpointUrl, hlogin]

/-- Witness for C2 at concrete inputs: a 401 from `/articles/today` on the
articles page clears the token and redirects, while a 401 from
`/auth/login` does not redirect. -/
theorem c2_unauthorized_redirect_witness :
    onResponseError (some 401) (some "/articles/today") "/articles"
        (some "tok") = { token := none, redirect := some "/login" } ∧
    (onResponseError (some 401) (some "/auth/login") "/login"
        (some "tok")).redirect = none := by
  constructor
  · exact (c2_unauthorized_redirect (some 401) (some "/articles/today")
      "/articles" (some "tok")).1 rfl (by decide) (by decide)
  · exact ((c2_unauthorized_redirect (some 401) (some "/auth/login") "/login"
      (some "tok")).2 "/auth/login" rfl (by decide)).1

/-- C6 counterexample: a source with no custom title, no detected name and
no feed title is displayed as the constant placeholder
"Untitled RSS Source", not as its raw URL, refuting the claimed
custom-title → feed-title → raw-URL fallback chain. -/
theorem c6_url_fallback_counterexample :
    titleDisplay ⟨none, none, none, "https://example.com/feed.xml"⟩ =
      "Untitled RSS Source" ∧
    cardTitle ⟨none, none, none, "https://example.com/feed.xml"⟩ =
      "Untitled RSS Source" ∧
    titleDisplay ⟨none, none, none, "https://example.com/feed.xml"⟩ ≠
      (RssSource.mk none none none "https://example.com/feed.xml").url := by
  refine ⟨rfl, rfl, by decide⟩

/-- C6 amended: the displayed title falls back through custom title, then
source name, then detected feed title, then the constant placeholder
"Untitled RSS Source"; the raw URL is never part of the chain (and the card
itself falls back from the custom title straight to the placeholder). -/
theorem c6_title_fallback_amended (source : RssSource) :
    (∀ t, source.title = some t → t ≠ "" →
      titleDisplay source = t ∧ cardTitle source = t) ∧
    (jsStrTruthy source.title = false →
      ∀ n, source.name = some n → n ≠ "" → titleDisplay source = n) ∧
    (jsStrTruthy source.title = false → jsStrTruthy source.name = false →
      ∀ f, source.feed_title = some f → f ≠ "" →
        titleDisplay source = f) ∧
    (jsStrTruthy source.title = false → jsStrTruthy source.name = false →
      jsStrTruthy source.feed_title = false →
      titleDisplay source = "Untitled RSS Source" ∧
      cardTitle source = "Untitled RSS Source") := by
  obtain ⟨ot, onm, od, u⟩ := source
  refine ⟨?_, ?_, ?_, ?_⟩
  · rintro t rfl hne
    have ht : (t == "") = false := beq_eq_false_iff_ne.mpr hne
    constructor <;> simp [titleDisplay, cardTitle, jsOrStr, ht]
  · intro htf n hn hne
    subst hn
    have hn' : (n == "") = false := beq_eq_false_iff_ne.mpr hne
    cases ot with
    | none => simp [titleDisplay, jsOrStr, hn']
    | some t =>
      simp only [jsStrTruthy, Bool.not_eq_false', beq_iff_eq] at htf
      subst htf
      simp [titleDisplay, jsOrStr, hn']
  · intro htf hnf f hf hne
    subst hf
    have hf' : (f == "") = false := beq_eq_false_iff_ne.mpr hne
    cases ot with
    | none =>
      cases onm with
      | none => simp [titleDisplay, jsOrStr, hf']
      | some n =>
        simp only [jsStrTruthy, Bool.not_eq_false', beq_iff_eq] at hnf
        subst hnf
        simp [titleDisplay, jsOrStr, hf']
    | some t =>
      simp only [jsStrTruthy, Bool.not_eq_false', beq_iff_eq] at htf
      subst htf
      cases onm with
      | none => simp [titleDisplay, jsOrStr, hf']
      | some n =>
        simp only [jsStrTruthy, Bool.not_eq_false', beq_iff_eq] at hnf
        subst hnf
        simp [titleDisplay, jsOrStr, hf']
  · intro htf hnf hff
    have hsimp : ∀ (o : Option String), jsStrTruthy o = false →
        ∀ b, jsOrStr o b = b := by
      intro o ho b
      cases o with
      | none => rfl
      | some x =>
        simp only [jsStrTruthy, Bool.not_eq_false', beq_iff_eq] at ho
        subst ho
        simp [jsOrStr]
    constructor
    · show jsOrStr ot (jsOrStr onm (jsOrStr od "Untitled RSS Source")) = _
      rw [hsimp ot htf, hsimp onm hnf, hsimp od hff]
    · show jsOrStr ot "Untitled RSS Source" = _
      rw [hsimp ot htf]

/-- Witness for C6 amended: a custom-titled source displays its custom
title; a bare source displays the placeholder. -/
theorem c6_title_fallback_amended_witness :
    titleDisplay ⟨some "My Feed", none, some "Feed Title", "u"⟩ =
      "My Feed" ∧
    titleDisplay ⟨none, none, none, "https://a.example/rss"⟩ =
      "Untitled RSS Source" := by
  constructor
  · exact ((c6_title_fallback_amended
      ⟨some "My Feed", none, some "Feed Title", "u"⟩).1 "My Feed" rfl
      (by decide)).1
  · exact ((c6_title_fallback_amended
      ⟨none, none, none, "https://a.example/rss"⟩).2.2.2 rfl rfl rfl).1

/-- C5: the three sequential filter passes of `filteredArticles` equal the
single-pass conjunction of the read-state, source and search predicates, and
membership in the filtered view is exactly membership in the input list plus
all active predicates (the search predicate being case-insensitive substring
containment over title, summary and source name). -/
theorem c5_filtering_is_conjunction (rf : ReadFilter)
    (selectedSource searchTerm : String) (articles : List Article) :
    filteredArticles rf selectedSource searchTerm articles =
      filteredArticlesSpec rf selectedSource searchTerm articles ∧
    ∀ a : Article,
      a ∈ filteredArticles rf selectedSource searchTerm articles ↔
        a ∈ articles ∧ readPred rf a = true ∧
          sourcePred selectedSource a = true ∧
          searchPred searchTerm a = true := by
  have hmain : filteredArticles rf selectedSource searchTerm articles =
      filteredArticlesSpec rf selectedSource searchTerm articles := by
    unfold filteredArticles filteredArticlesSpec
    cases rf <;>
      cases hsrc : (selectedSource == "all") <;>
        cases hterm : (searchTerm.trim == "") <;>
          simp only [hsrc, hterm, Bool.false_eq_true, if_true, if_false,
            ite_true, ite_false, List.filter_filter] <;>
          · apply Eq.symm
            first
            | (rw [List.filter_eq_self]
               intro a _
               simp [readPred, sourcePred, searchPred, hsrc, hterm])
            | (apply List.filter_congr
               intro a _
               simp only [readPred, sourcePred, searchPred, hsrc, hterm,
                 Bool.false_or, Bool.true_and, Bool.and_true]
               simp [Bool.and_comm, Bool.and_left_comm, Bool.and_assoc])
  refine ⟨hmain, fun a => ?_⟩
  rw [hmain]
  unfold filteredArticlesSpec
  simp [List.mem_filter, and_assoc]

/-- C8: when the first invocation of `toggleSelectAll` is a select-all (the
current selection size differs from the filtered list's length) and the
filtered articles carry distinct ids, a second invocation (now a
deselect-all) empties the selection, whatever was selected before. -/
theorem c8_select_all_then_deselect_all (filtered : List Article)
    (selected : Finset Nat)
    (hnodup : (filtered.map (fun a => a.id)).Nodup)
    (hne : selected.card ≠ filtered.length) :
    toggleSelectAll filtered (toggleSelectAll filtered selected) = ∅ := by
  unfold toggleSelectAll
  rw [if_neg hne, if_pos]
  rw [List.toFinset_card_of_nodup hnodup, List.length_map]

/-- Witness for C8: two articles with ids 1 and 2, a stale selection `{9}`
from outside the filter; select-all then deselect-all yields the empty
set. -/
theorem c8_select_all_then_deselect_all_witness :
    toggleSelectAll [⟨1, "a", none, false, none⟩, ⟨2, "b", none, true, none⟩]
      (toggleSelectAll
        [⟨1, "a", none, false, none⟩, ⟨2, "b", none, true, none⟩]
        {9}) = ∅ :=
  c8_select_all_then_deselect_all _ {9} (by decide) (by decide)

/-- C10: `toggleArticleSelection` is an involution; one toggle flips exactly
the toggled id's membership and leaves every other id's membership
unchanged. -/
theorem c10_toggle_selection_involution (S : Finset Nat) (a : Nat) :
    toggleArticleSelection a (toggleArticleSelection a S) = S ∧
    (a ∈ toggleArticleSelection a S ↔ a ∉ S) ∧
    ∀ b, b ≠ a → (b ∈ toggleArticleSelection a S ↔ b ∈ S) := by
  by_cases h : a ∈ S
  · refine ⟨?_, ?_, ?_⟩
    · simp [toggleArticleSelection, h, Finset.insert_erase]
    · simp [toggleArticleSelection, h]
    · intro b hb
      simp [toggleArticleSelection, h, Finset.mem_erase, hb]
  · refine ⟨?_, ?_, ?_⟩
    · simp [toggleArticleSelection, h, Finset.erase_insert]
    · simp [toggleArticleSelection, h]
    · intro b hb
      simp [toggleArticleSelection, h, Finset.mem_insert, hb]

/-- Witness for C10 at a concrete selection set. -/
theorem c10_toggle_selection_involution_witness :
    toggleArticleSelection 1 (toggleArticleSelection 1 {2, 3}) = {2, 3} ∧
    (1 ∈ toggleArticleSelection 1 ({2, 3} : Finset Nat) ↔
      1 ∉ ({2, 3} : Finset Nat)) ∧
    (2 ∈ toggleArticleSelection 1 ({2, 3} : Finset Nat) ↔
      2 ∈ ({2, 3} : Finset Nat)) := by
  obtain ⟨h1, h2, h3⟩ := c10_toggle_selection_involution {2, 3} 1
  exact ⟨h1, h2, h3 2 (by decide)⟩

/-- C9: a click while the operation lock is held is ignored: the whole
controller state (active id, playing flag, times, loading id, cache, lock,
and all bookkeeping) is unchanged. -/
theorem c9_locked_click_ignored (s : PlayerState) (pid : Nat)
    (h : s.opLock = true) : handlePlay pid s = s := by
  unfold handlePlay
  simp [h]

/-- Witness for C9: a locked state absorbs a click unchanged. -/
theorem c9_locked_click_ignored_witness :
    handlePlay 7 { initialState with opLock := true } =
      { initialState with opLock := true } :=
  c9_locked_click_ignored _ 7 rfl

/-- C3: clicking the currently playing podcast with no pending load toggles
pause/resume in place: the playing flag and the element's paused flag flip,
and no fetch, pending load, cache entry or object URL is created. -/
theorem c3_same_podcast_click_toggles (s : PlayerState) (pid : Nat)
    (a : AudioElem) (hlock : s.opLock = false)
    (hcur : s.currentlyPlaying = some pid) (hload : s.isLoading = none)
    (href : s.audioRef = some a) :
    handlePlay pid s =
      { s with isPlaying := !s.isPlaying,
               audioRef := some { a with paused := s.isPlaying },
               opLock := false } ∧
    (handlePlay pid s).fetchCount = s.fetchCount ∧
    (handlePlay pid s).pending = s.pending ∧
    (handlePlay pid s).cache = s.cache ∧
    (handlePlay pid s).createdUrls = s.createdUrls ∧
    (handlePlay pid s).currentlyPlaying = some pid ∧
    (handlePlay pid s).isPlaying = !s.isPlaying := by
  have hmain : handlePlay pid s =
      { s with isPlaying := !s.isPlaying,
               audioRef := some { a with paused := s.isPlaying },
               opLock := false } := by
    unfold handlePlay
    cases hp : s.isPlaying <;>
      simp [hlock, hcur, hload, href, jsNumTruthy, hp]
  rw [hmain]
  exact ⟨rfl, rfl, rfl, rfl, rfl, hcur, rfl⟩

/-- Witness for C3: pausing podcast 3 from a concrete playing state flips
the playing flag and performs no fetch. -/
theorem c3_same_podcast_click_toggles_witness :
    handlePlay 3 samplePlayingState =
      { samplePlayingState with
          isPlaying := false, audioRef := some ⟨0, 3, 7, true⟩,
          opLock := false } ∧
    (handlePlay 3 samplePlayingState).fetchCount =
      samplePlayingState.fetchCount ∧
    (handlePlay 3 samplePlayingState).isPlaying = false :=
  have h := c3_same_podcast_click_toggles samplePlayingState 3 ⟨0, 3, 7, false⟩
    rfl rfl rfl rfl
  ⟨h.1, h.2.1, h.2.2.2.2.2.2⟩

/-- C7: `getAudioUrl` is idempotent per podcast id: a cache hit returns the
cached URL with no fetch and no state change; a cache miss with a token
performs exactly one authenticated fetch, stores the fresh object URL in the
cache, and every later call for the same id returns that same URL without
fetching. -/
theorem c7_get_audio_url_idempotent (token : Option String) (pid : Nat)
    (s : PlayerState) :
    (∀ url, cacheLookup s.cache pid = some url →
      ∀ outcome abortedNow,
        getAudioUrl token outcome abortedNow pid s = (.ok url, s)) ∧
    (cacheLookup s.cache pid = none → jsStrTruthy token = true →
      (getAudioUrl token .success false pid s).1 = .ok s.nextUrl ∧
      (getAudioUrl token .success false pid s).2.fetchCount =
        s.fetchCount + 1 ∧
      cacheLookup (getAudioUrl token .success false pid s).2.cache pid =
        some s.nextUrl ∧
      ∀ token2 outcome2 abortedNow2,
        getAudioUrl token2 outcome2 abortedNow2 pid
            (getAudioUrl token .success false pid s).2 =
          (.ok s.nextUrl, (getAudioUrl token .success false pid s).2)) := by
  constructor
  · intro url h outcome abortedNow
    unfold getAudioUrl
    rw [h]
  · intro hmiss htok
    unfold getAudioUrl getAudioUrlMiss
    rw [hmiss]
    simp [htok, cacheLookup]

/-- Witness for C7: a miss on podcast 5 fetches once and caches URL 0; a
second call (even with a different token and a failing network) returns the
cached URL with no state change. -/
theorem c7_get_audio_url_idempotent_witness :
    (getAudioUrl (some "tok") .success false 5 initialState).1 = .ok 0 ∧
    (getAudioUrl (some "tok") .success false 5 initialState).2.fetchCount
      = 1 ∧
    getAudioUrl (some "other") .netError true 5
        (getAudioUrl (some "tok") .success false 5 initialState).2 =
      (.ok 0, (getAudioUrl (some "tok") .success false 5 initialState).2) :=
  have h := (c7_get_audio_url_idempotent (some "tok") 5 initialState).2
    rfl rfl
  ⟨h.1, h.2.1, h.2.2.2 (some "other") .netError true⟩

/-- C4 (failing input): after two rapid clicks on podcast 1, the first
load's controller (token 0) is already aborted, i.e. that load is superseded
and cancelled; yet when its fetch settles successfully before the abort was
observed (the post-blob `signal.aborted` check fires), the controller shows
the transient error "Failed to load podcast" and resets playback, aborting
the second, current load (controller 1) as collateral — not the silent
no-op the specification requires for a cancelled, superseded load. -/
theorem c4_superseded_cancellation_shows_error :
    (run (some "tkn") initialState
        [PlayerEvent.click 1, PlayerEvent.click 1]).aborted = [0] ∧
    ((run (some "tkn") initialState
        [PlayerEvent.click 1, PlayerEvent.click 1]).pending.map
          PendingLoad.ctrl) = [0, 1] ∧
    (run (some "tkn") initialState
        [PlayerEvent.click 1, PlayerEvent.click 1,
         PlayerEvent.resume 0 .success]).errorMessage =
      some "Failed to load podcast" ∧
    (run (some "tkn") initialState
        [PlayerEvent.click 1, PlayerEvent.click 1,
         PlayerEvent.resume 0 .success]).aborted = [1, 0] ∧
    (run (some "tkn") initialState
        [PlayerEvent.click 1, PlayerEvent.click 1,
         PlayerEvent.resume 0 .success]).loadingPodcast = none := by
  refine ⟨rfl, rfl, rfl, rfl, rfl⟩

/-! ### Invariants for the last-click-wins property (C1) -/

/-- Unfolding `run` over a cons of events. -/
theorem run_cons (token : Option String) (s : PlayerState) (e : PlayerEvent)
    (evs : List PlayerEvent) :
    run token s (e :: evs) = run token (step token e s) evs := rfl

/-- Invariant holding after each click of a rapid burst whose most recent
click was on podcast `L`; `P` is the promotions ghost list before the
burst (clicks themselves never promote). -/
def ClickInv (L : Nat) (P : List Nat) (s : PlayerState) : Prop :=
  s.opLock = false ∧ s.promotions = P ∧
  (s.loadingPodcast = none ∨ s.loadingPodcast = some L) ∧
  (s.currentlyPlaying = none ∨ s.currentlyPlaying = some L) ∧
  (s.currentlyPlaying.isSome → s.audioRef.isSome)

/-- Invariant preserved by the completion events that follow the burst. -/
def SettleInv (L : Nat) (P : List Nat) (s : PlayerState) : Prop :=
  s.promotions ⊆ L :: P ∧
  (s.loadingPodcast = none ∨ s.loadingPodcast = some L) ∧
  (s.currentlyPlaying = none ∨ s.currentlyPlaying = some L)

/-- Frame facts about `stopAllAudio`: the fields it resets and the fields it
leaves alone. -/
theorem stopAllAudio_frame (s : PlayerState) :
    (stopAllAudio s).opLock = false ∧
    (stopAllAudio s).currentlyPlaying = none ∧
    (stopAllAudio s).loadingPodcast = none ∧
    (stopAllAudio s).isLoading = none ∧
    (stopAllAudio s).audioRef = none ∧
    (stopAllAudio s).promotions = s.promotions ∧
    (stopAllAudio s).revoked = s.revoked := by
  cases h : s.abortCtrl <;> simp [stopAllAudio, h]

/-- Frame facts about `playPodcastStart`: it only touches the controller
counter, the abort-controller ref and the pending list. -/
theorem playPodcastStart_frame (pid : Nat) (s : PlayerState) :
    (playPodcastStart pid s).opLock = s.opLock ∧
    (playPodcastStart pid s).currentlyPlaying = s.currentlyPlaying ∧
    (playPodcastStart pid s).loadingPodcast = s.loadingPodcast ∧
    (playPodcastStart pid s).promotions = s.promotions ∧
    (playPodcastStart pid s).audioRef = s.audioRef ∧
    (playPodcastStart pid s).revoked = s.revoked := by
  unfold playPodcastStart
  split <;> simp

/-- Frame facts about the state component of `getAudioUrlMiss`: it only
touches the fetch counter, the cache, the created-URL log and the URL
counter. -/
theorem getAudioUrlMiss_frame (token : Option String) (outcome : FetchOutcome)
    (abortedNow : Bool) (pid : Nat) (s : PlayerState) :
    (getAudioUrlMiss token outcome abortedNow pid s).2.loadingPodcast =
      s.loadingPodcast ∧
    (getAudioUrlMiss token outcome abortedNow pid s).2.currentlyPlaying =
      s.currentlyPlaying ∧
    (getAudioUrlMiss token outcome abortedNow pid s).2.promotions =
      s.promotions ∧
    (getAudioUrlMiss token outcome abortedNow pid s).2.revoked = s.revoked ∧
    (getAudioUrlMiss token outcome abortedNow pid s).2.aborted = s.aborted ∧
    (getAudioUrlMiss token outcome abortedNow pid s).2.opLock = s.opLock ∧
    (getAudioUrlMiss token outcome abortedNow pid s).2.audioRef =
      s.audioRef := by
  unfold getAudioUrlMiss
  split
  · simp
  · cases outcome <;> simp <;> split <;> simp

/-- Frame facts about `resumeBase`: it only retires the pending entry and
applies the `getAudioUrlMiss` effects. -/
theorem resumeBase_frame (token : Option String) (outcome : FetchOutcome)
    (p : PendingLoad) (s : PlayerState) :
    (resumeBase token outcome p s).loadingPodcast = s.loadingPodcast ∧
    (resumeBase token outcome p s).currentlyPlaying = s.currentlyPlaying ∧
    (resumeBase token outcome p s).promotions = s.promotions ∧
    (resumeBase token outcome p s).revoked = s.revoked := by
  unfold resumeBase
  cases p.cacheHit with
  | some url => exact ⟨rfl, rfl, rfl, rfl⟩
  | none =>
    obtain ⟨h1, h2, h3, h4, _⟩ := getAudioUrlMiss_frame token outcome
      (decide (p.ctrl ∈ s.aborted)) p.pid
      { s with pending := s.pending.filter (fun q => !(q.ctrl == p.ctrl)) }
    exact ⟨h1, h2, h3, h4⟩

/-- A click on `pid` from any unlocked state whose active podcast (if any)
has an attached element and whose loading target is compatible establishes
the click invariant for `pid`. -/
theorem handlePlay_click_inv (s : PlayerState) (pid : Nat)
    (hlock : s.opLock = false)
    (hcons : s.currentlyPlaying.isSome → s.audioRef.isSome)
    (hload : s.currentlyPlaying = some pid →
      s.loadingPodcast = none ∨ s.loadingPodcast = some pid) :
    ClickInv pid s.promotions (handlePlay pid s) := by
  unfold handlePlay
  rw [if_neg (by simp [hlock])]
  by_cases hcond :
      (s.currentlyPlaying == some pid && !(jsNumTruthy s.isLoading)) = true
  · have hcond' := hcond
    simp only [Bool.and_eq_true, beq_iff_eq] at hcond'
    have hcur : s.currentlyPlaying = some pid := hcond'.1
    have href : s.audioRef.isSome := hcons (by simp [hcur])
    obtain ⟨a, ha⟩ := Option.isSome_iff_exists.mp href
    simp only [hcond, if_true, ha]
    cases hp : s.isPlaying <;>
      · refine ⟨rfl, rfl, ?_, ?_, ?_⟩
        · exact hload hcur
        · exact Or.inr hcur
        · intro _
          simp
  · simp only [hcond, if_false]
    cases habc : s.abortCtrl <;>
      simp [ClickInv, playPodcastStart, stopAllAudio, habc]

/-- One click preserves the click invariant, updating the most recent id. -/
theorem handlePlay_click_inv_step (L : Nat) (P : List Nat) (s : PlayerState)
    (pid : Nat) (h : ClickInv L P s) : ClickInv pid P (handlePlay pid s) := by
  obtain ⟨hlock, hprom, hload, hcur, hcons⟩ := h
  have := handlePlay_click_inv s pid hlock hcons (by
    intro hc
    rcases hcur with h | h
    · rw [hc] at h
      cases h
    · rw [hc] at h
      cases h
      exact hload)
  rwa [hprom] at this

/-- A whole burst of clicks preserves the click invariant, ending at the
last clicked id. -/
theorem run_clicks_inv (token : Option String) (ids : List Nat) :
    ∀ (L : Nat) (P : List Nat) (s : PlayerState), ClickInv L P s →
      ClickInv (ids.getLastD L) P
        (run token s (ids.map PlayerEvent.click)) := by
  induction ids with
  | nil => exact fun L P s h => h
  | cons i rest ih =>
    intro L P s h
    rw [List.map_cons, run_cons, List.getLastD_cons]
    exact ih i P _ (handlePlay_click_inv_step L P s i h)

/-- The settle invariant follows from the click invariant. -/
theorem clickInv_settleInv (L : Nat) (P : List Nat) (s : PlayerState)
    (h : ClickInv L P s) : SettleInv L P s := by
  obtain ⟨_, hprom, hload, hcur, _⟩ := h
  exact ⟨by rw [hprom]; exact List.subset_cons_self L P, hload, hcur⟩

/-- The settle invariant transfers along equality of its three fields. -/
theorem settleInv_of_frame (L : Nat) (P : List Nat) (s X : PlayerState)
    (h1 : X.promotions = s.promotions)
    (h2 : X.loadingPodcast = s.loadingPodcast)
    (h3 : X.currentlyPlaying = s.currentlyPlaying)
    (h : SettleInv L P s) : SettleInv L P X := by
  obtain ⟨hp, hl, hc⟩ := h
  exact ⟨by rw [h1]; exact hp, by rw [h2]; exact hl, by rw [h3]; exact hc⟩

/-- Every non-click event preserves the settle invariant: fetch settlements
can only promote the id the controller is still loading (which the
invariant pins to `L`), and every other event either resets or leaves the
relevant fields. -/
theorem step_settleInv (token : Option String) (e : PlayerEvent) (L : Nat)
    (P : List Nat) (s : PlayerState) (h : SettleInv L P s)
    (hnc : e.isClick = false) : SettleInv L P (step token e s) := by
  obtain ⟨hprom, hload, hcur⟩ := h
  cases e with
  | click pid => simp [PlayerEvent.isClick] at hnc
  | resume ctrl outcome =>
    simp only [step]
    cases hf : s.pending.find? (fun p => p.ctrl == ctrl) with
    | none => exact ⟨hprom, hload, hcur⟩
    | some p =>
      obtain ⟨hB1, hB2, hB3, _⟩ := resumeBase_frame token outcome p s
      simp only [playPodcastResume]
      split
      next url hres =>
        split
        next hc =>
          exact settleInv_of_frame L P s _ hB3 hB1 hB2 ⟨hprom, hload, hcur⟩
        next hc =>
          have hpl : s.loadingPodcast = some p.pid := by
            simp only [Bool.or_eq_true, Bool.not_eq_true',
              beq_eq_false_iff_ne, decide_eq_true_eq, not_or,
              not_not] at hc
            rw [← hB1]
            exact hc.1
          have hpid : p.pid = L := by
            rcases hload with hl | hl
            · rw [hl] at hpl
              cases hpl
            · rw [hl] at hpl
              exact (Option.some.injEq _ _).mp hpl.symm
          refine ⟨?_, ?_, ?_⟩
          · show p.pid :: (resumeBase token outcome p s).promotions ⊆ L :: P
            intro x hx
            simp only [List.mem_cons] at hx
            rcases hx with hx | hx
            · rw [hx, hpid]
              exact List.mem_cons_self _ _
            · rw [hB3] at hx
              exact hprom hx
          · show (resumeBase token outcome p s).loadingPodcast = none ∨
              (resumeBase token outcome p s).loadingPodcast = some L
            rw [hB1]
            exact hload
          · show some p.pid = none ∨ some p.pid = some L
            rw [hpid]
            exact Or.inr rfl
      next err hres =>
        split
        next he =>
          exact settleInv_of_frame L P s _ hB3 hB1 hB2 ⟨hprom, hload, hcur⟩
        next he =>
          split
          next hc2 =>
            obtain ⟨_, hS2, hS3, _, _, hS6, _⟩ :=
              stopAllAudio_frame (resumeBase token outcome p s)
            refine ⟨?_, Or.inl ?_, Or.inl ?_⟩
            · show (stopAllAudio (resumeBase token outcome p s)).promotions
                ⊆ L :: P
              rw [hS6, hB3]
              exact hprom
            · exact hS3
            · exact hS2
          next hc2 =>
            exact settleInv_of_frame L P s _ hB3 hB1 hB2 ⟨hprom, hload, hcur⟩
  | loadedMetadata tok dur =>
    simp only [step]
    cases har : s.audioRef with
    | none => exact ⟨hprom, hload, hcur⟩
    | some a =>
      by_cases hc : (a.tok == tok && s.loadingPodcast == some a.pid) = true
      · simp only [hc, if_true]
        exact ⟨hprom, Or.inl rfl, hcur⟩
      · simp only [hc, if_false]
        exact ⟨hprom, hload, hcur⟩
  | timeUpdate tok t =>
    simp only [step]
    cases har : s.audioRef with
    | none => exact ⟨hprom, hload, hcur⟩
    | some a =>
      by_cases hc : (a.tok == tok) = true
      · simp only [hc, if_true]
        exact ⟨hprom, hload, hcur⟩
      · simp only [hc, if_false]
        exact ⟨hprom, hload, hcur⟩
  | ended tok =>
    simp only [step]
    cases har : s.audioRef with
    | none => exact ⟨hprom, hload, hcur⟩
    | some a =>
      by_cases hc : (a.tok == tok) = true
      · simp only [hc, if_true]
        obtain ⟨_, hS2, hS3, _, _, hS6, _⟩ := stopAllAudio_frame s
        exact ⟨by rw [hS6]; exact hprom, Or.inl hS3, Or.inl hS2⟩
      · simp only [hc, if_false]
        exact ⟨hprom, hload, hcur⟩
  | audioError tok =>
    simp only [step]
    cases har : s.audioRef with
    | none => exact ⟨hprom, hload, hcur⟩
    | some a =>
      by_cases hc : (a.tok == tok) = true
      · simp only [hc, if_true]
        obtain ⟨_, hS2, hS3, _, _, hS6, _⟩ := stopAllAudio_frame s
        refine ⟨?_, Or.inl hS3, Or.inl hS2⟩
        show (stopAllAudio s).promotions ⊆ L :: P
        rw [hS6]
        exact hprom
      · simp only [hc, if_false]
        exact ⟨hprom, hload, hcur⟩
  | errorTimeout => exact ⟨hprom, hload, hcur⟩

/-- The settle invariant is preserved by any run of non-click events. -/
theorem run_settleInv (token : Option String) (evs : List PlayerEvent) :
    ∀ (L : Nat) (P : List Nat) (s : PlayerState), SettleInv L P s →
      (∀ e ∈ evs, e.isClick = false) → SettleInv L P (run token s evs) := by
  induction evs with
  | nil => exact fun L P s h _ => h
  | cons e rest ih =>
    intro L P s h hnc
    rw [run_cons]
    exact ih L P _ (step_settleInv token e L P s h
      (hnc e (List.mem_cons_self _ _)))
      (fun e' he' => hnc e' (List.mem_cons_of_mem _ he'))

/-- C1: for a burst of rapid clicks from a quiescent state followed by any
interleaving of fetch settlements and media events, every podcast promoted
to the active playing podcast is the last clicked id (and the final active
podcast, if any, is that id); moreover a superseded or cancelled pending
load, when it settles, never promotes (its ghost `promotions` entry is not
recorded) and any object URL handed to its continuation is revoked rather
than kept. -/
theorem c1_last_click_wins :
    (∀ (token : Option String) (s : PlayerState) (ids : List Nat)
        (evs : List PlayerEvent), Quiescent s → ids ≠ [] →
        (∀ e ∈ evs, e.isClick = false) →
        ((run token (run token s (ids.map PlayerEvent.click)) evs).promotions
            ⊆ ids.getLastD 0 :: s.promotions ∧
          ((run token (run token s (ids.map PlayerEvent.click))
              evs).currentlyPlaying = none ∨
           (run token (run token s (ids.map PlayerEvent.click))
              evs).currentlyPlaying = some (ids.getLastD 0)))) ∧
    (∀ (token : Option String) (outcome : FetchOutcome) (s : PlayerState)
        (p : PendingLoad), p ∈ s.pending →
        (s.loadingPodcast ≠ some p.pid ∨ p.ctrl ∈ s.aborted) →
        ((playPodcastResume token outcome p s).promotions = s.promotions ∧
         ∀ url, resumeResult token outcome p s = .ok url →
           url ∈ (playPodcastResume token outcome p s).revoked)) := by
  constructor
  · intro token s ids evs hq hne hnc
    obtain ⟨hlock, hpend, hisl, hlp, hcons⟩ := hq
    cases ids with
    | nil => exact absurd rfl hne
    | cons i rest =>
      have h1 : ClickInv i s.promotions (handlePlay i s) :=
        handlePlay_click_inv s i hlock hcons (fun _ => Or.inl hlp)
      have h2 : ClickInv (rest.getLastD i) s.promotions
          (run token (handlePlay i s) (rest.map PlayerEvent.click)) :=
        run_clicks_inv token rest i s.promotions _ h1
      have h4 := run_settleInv token evs (rest.getLastD i) s.promotions _
        (clickInv_settleInv _ _ _ h2) hnc
      rw [List.map_cons, run_cons, List.getLastD_cons]
      exact ⟨h4.1, h4.2.2⟩
  · intro token outcome s p _ hsup
    obtain ⟨hB1, hB2, hB3, hB4⟩ := resumeBase_frame token outcome p s
    have hcond :
        (!((resumeBase token outcome p s).loadingPodcast == some p.pid)
          || decide (p.ctrl ∈ s.aborted)) = true := by
      rcases hsup with h | h
      · have hne : ((resumeBase token outcome p s).loadingPodcast ==
            some p.pid) = false := by
          rw [hB1]
          exact beq_eq_false_iff_ne.mpr h
        rw [hne]
        rfl
      · simp [h]
    constructor
    · simp only [playPodcastResume]
      cases hres : resumeResult token outcome p s with
      | ok url =>
        simp only [hcond, if_true]
        exact hB3
      | error err =>
        by_cases he : err.isAbortError = true
        · simp only [he, if_true]
          exact hB3
        · simp only [he, if_false]
          by_cases hc2 : ((resumeBase token outcome p s).loadingPodcast ==
              some p.pid) = true
          · simp only [hc2, if_true]
            obtain ⟨_, _, _, _, _, hS6, _⟩ :=
              stopAllAudio_frame (resumeBase token outcome p s)
            show (stopAllAudio (resumeBase token outcome p s)).promotions =
              s.promotions
            rw [hS6]
            exact hB3
          · simp only [hc2, if_false]
            exact hB3
    · intro url hres
      simp only [playPodcastResume, hres, hcond, if_true]
      exact List.mem_cons_self _ _

/-- Witness for C1: clicks on podcasts 1 then 2 from the initial state, the
winning fetch for 2 settling first and the superseded fetch for 1 rejecting
with its abort; and, for the superseded-settlement conjunct, the state right
after the two clicks with the stale pending load of podcast 1. -/
theorem c1_last_click_wins_witness :
    ((run (some "tkn") (run (some "tkn") initialState
          ([1, 2].map PlayerEvent.click))
        [PlayerEvent.resume 1 FetchOutcome.success,
         PlayerEvent.resume 0 FetchOutcome.abortReject]).promotions ⊆
        [1, 2].getLastD 0 :: initialState.promotions ∧
      ((run (some "tkn") (run (some "tkn") initialState
            ([1, 2].map PlayerEvent.click))
          [PlayerEvent.resume 1 FetchOutcome.success,
           PlayerEvent.resume 0 FetchOutcome.abortReject]).currentlyPlaying
          = none ∨
       (run (some "tkn") (run (some "tkn") initialState
            ([1, 2].map PlayerEvent.click))
          [PlayerEvent.resume 1 FetchOutcome.success,
           PlayerEvent.resume 0 FetchOutcome.abortReject]).currentlyPlaying
          = some ([1, 2].getLastD 0))) ∧
    ((playPodcastResume (some "tkn") FetchOutcome.success ⟨1, 0, none⟩
        (run (some "tkn") initialState
          [PlayerEvent.click 1, PlayerEvent.click 2])).promotions =
      (run (some "tkn") initialState
        [PlayerEvent.click 1, PlayerEvent.click 2]).promotions ∧
     ∀ url, resumeResult (some "tkn") FetchOutcome.success ⟨1, 0, none⟩
         (run (some "tkn") initialState
           [PlayerEvent.click 1, PlayerEvent.click 2]) = .ok url →
       url ∈ (playPodcastResume (some "tkn") FetchOutcome.success
           ⟨1, 0, none⟩ (run (some "tkn") initialState
             [PlayerEvent.click 1, PlayerEvent.click 2])).revoked) := by
  constructor
  · exact c1_last_click_wins.1 (some "tkn") initialState [1, 2]
      [PlayerEvent.resume 1 FetchOutcome.success,
       PlayerEvent.resume 0 FetchOutcome.abortReject]
      (by decide) (by decide) (by decide)
  · exact c1_last_click_wins.2 (some "tkn") FetchOutcome.success
      (run (some "tkn") initialState
        [PlayerEvent.click 1, PlayerEvent.click 2])
      ⟨1, 0, none⟩ (by decide) (by decide)

end LetsBreakInfoGap
